import Mathlib

set_option maxRecDepth 100000

/-!
Verification development for a repository containing two single-file React
"Snake" game variants:

* `AppJsx` models `src/snake-game-claude/src/App.jsx` (markup renderer,
  snake stored head-first, `gameOver`/`isPlaying` flags, modes
  `walls`/`passThrough`).
* `Canvas` models the canvas-based variant (snake stored tail-first with the
  head as the LAST list element, a single `running` flag, `wrapWalls`
  toggle, speed ramp and persistent high score).

JavaScript numbers holding grid coordinates are modelled as `Int` (a head
coordinate transiently becomes `-1` or `20` before wall handling).  The
calls to `Math.random()` are modelled by explicit inputs: a natural number
`r` selecting an index into the free-cell list of the canvas variant, and a
stream `Nat → Cell` of sampled cells plus a fuel bound for the
rejection loop of the App.jsx variant (the loop has no bound in the source;
`none` models a run of the loop that has not yet produced a cell).
-/

/-- A grid cell: the `{x, y}` coordinate objects of both variants. -/
structure Cell where
  x : Int
  y : Int
deriving DecidableEq

/-- The exact opposite of a direction delta vector. -/
def negCell (c : Cell) : Cell := ⟨-c.x, -c.y⟩

namespace AppJsx

/-- Constant `GRID_SIZE = 20` in App.jsx. -/
def GRID_SIZE : Int := 20

/-- Constant `INITIAL_SNAKE = [{x:10,y:10}]` in App.jsx (head first). -/
def INITIAL_SNAKE : List Cell := [⟨10, 10⟩]

/-- Constant `INITIAL_DIRECTION = {x:1,y:0}` in App.jsx. -/
def INITIAL_DIRECTION : Cell := ⟨1, 0⟩

/-- The `gameMode` state: the strings `walls` and `pass-through`. -/
inductive GameMode where
  | walls
  | passThrough
deriving DecidableEq

/-- The four direction keys handled by `handleKeyPress` (arrow keys / WASD). -/
inductive Key where
  | up
  | down
  | left
  | right
deriving DecidableEq

/-- The delta vector that `handleKeyPress` writes for each key. -/
def keyDir : Key → Cell
  | .up => ⟨0, -1⟩
  | .down => ⟨0, 1⟩
  | .left => ⟨-1, 0⟩
  | .right => ⟨1, 0⟩

/-- The React state of the App.jsx component: `snake`, `food`, `direction`
(the committed direction state), `directionRef` (the pending direction
consumed by the game loop), `gameOver`, `score`, `isPlaying`, `gameMode`. -/
structure GameState where
  snake : List Cell
  food : Cell
  direction : Cell
  dirRef : Cell
  gameOver : Bool
  score : Nat
  isPlaying : Bool
  gameMode : GameMode
deriving DecidableEq

/-- The body of `generateFood`: a do-while loop that samples a cell from the
random stream and retries while the sample hits `currentSnake`.  `idx` is
the position in the sample stream and `fuel` bounds the number of samples
examined; `none` means the loop did not finish within `fuel` samples. -/
def generateFoodAux (currentSnake : List Cell) (stream : Nat → Cell) :
    Nat → Nat → Option Cell
  | _, 0 => none
  | idx, Nat.succ fuel =>
    let newFood := stream idx
    if newFood ∈ currentSnake then generateFoodAux currentSnake stream (idx + 1) fuel
    else some newFood

/-- `generateFood` terminates on `currentSnake` with sample stream `stream`:
some number of samples suffices for the do-while loop to exit. -/
def generateFoodHalts (currentSnake : List Cell) (stream : Nat → Cell) : Prop :=
  ∃ fuel, (generateFoodAux currentSnake stream 0 fuel).isSome = true

/-- `handleKeyPress`: returns the new value of `directionRef.current`.
The handler returns early when not playing or game over; otherwise each key
updates the ref only when the guard on the CURRENT ref value passes
(`currentDir.y === 0` for vertical keys, `currentDir.x === 0` for
horizontal keys). -/
def handleKeyPress (isPlaying gameOver : Bool) (currentDir : Cell) (key : Key) : Cell :=
  if !isPlaying || gameOver then currentDir
  else
    match key with
    | .up => if currentDir.y = 0 then ⟨0, -1⟩ else currentDir
    | .down => if currentDir.y = 0 then ⟨0, 1⟩ else currentDir
    | .left => if currentDir.x = 0 then ⟨-1, 0⟩ else currentDir
    | .right => if currentDir.x = 0 then ⟨1, 0⟩ else currentDir

/-- A key press as a state transformer: only `directionRef` can change. -/
def pressKey (key : Key) (st : GameState) : GameState :=
  { st with dirRef := handleKeyPress st.isPlaying st.gameOver st.dirRef key }

/-- `resetGame` in App.jsx: restores snake, food, direction (state and ref),
clears `gameOver` and `score`, and sets `isPlaying` to TRUE (it is the
handler of both the Start and the Play Again buttons). -/
def resetGame (st : GameState) : GameState :=
  { st with
    snake := INITIAL_SNAKE
    food := ⟨15, 15⟩
    direction := INITIAL_DIRECTION
    dirRef := INITIAL_DIRECTION
    gameOver := false
    score := 0
    isPlaying := true }

/-- The mode buttons: `setGameMode` guarded by `disabled={isPlaying}`. -/
def setGameMode (m : GameMode) (st : GameState) : GameState :=
  if st.isPlaying then st else { st with gameMode := m }

/-- The wall-collision range test of the game loop:
`newHead.x < 0 || newHead.x >= GRID_SIZE || newHead.y < 0 || newHead.y >= GRID_SIZE`. -/
def outOfRange (c : Cell) : Prop :=
  c.x < 0 ∨ GRID_SIZE ≤ c.x ∨ c.y < 0 ∨ GRID_SIZE ≤ c.y

instance : DecidablePred outOfRange := fun c => by
  unfold outOfRange; infer_instance

/-- Pass-through wrapping of one coordinate, exactly the two sequential
conditionals of the source: `if (v < 0) v = GRID_SIZE - 1; if (v >= GRID_SIZE) v = 0`. -/
def wrapCoord (v : Int) : Int :=
  let v1 := if v < 0 then GRID_SIZE - 1 else v
  if GRID_SIZE ≤ v1 then 0 else v1

/-- Pass-through wrapping applied to both coordinates of the new head. -/
def wrapCell (c : Cell) : Cell := ⟨wrapCoord c.x, wrapCoord c.y⟩

/-- The part of the game loop from the self-collision check onwards, applied
to the wall-handled new head: on collision set `gameOver` and stop playing;
otherwise prepend the head, either grow and regenerate food (head on food)
or pop the tail.  Every branch also commits the pending direction
(`setDirection(directionRef.current)` runs in the same interval callback). -/
def applyHead (stream : Nat → Cell) (fuel : Nat) (st : GameState) (newHead : Cell) :
    Option GameState :=
  if newHead ∈ st.snake then
    some { st with gameOver := true, isPlaying := false, direction := st.dirRef }
  else
    if newHead = st.food then
      match generateFoodAux (newHead :: st.snake) stream 0 fuel with
      | none => none
      | some f =>
        some { st with snake := newHead :: st.snake, food := f, score := st.score + 10,
                       direction := st.dirRef }
    else
      some { st with snake := (newHead :: st.snake).dropLast, direction := st.dirRef }

/-- One tick of the App.jsx game loop (`setInterval` callback).  The loop
effect is not installed at all unless `isPlaying && !gameOver`, modelled by
the identity on such states.  `none` arises only when the food rejection
loop does not finish within `fuel` samples (or on the degenerate empty
snake, on which the source would index `undefined`). -/
def tick (stream : Nat → Cell) (fuel : Nat) (st : GameState) : Option GameState :=
  if !st.isPlaying || st.gameOver then some st
  else
    match st.snake with
    | [] => none
    | head :: _ =>
      match st.gameMode with
      | .walls =>
        if outOfRange ⟨head.x + st.dirRef.x, head.y + st.dirRef.y⟩ then
          some { st with gameOver := true, isPlaying := false, direction := st.dirRef }
        else applyHead stream fuel st ⟨head.x + st.dirRef.x, head.y + st.dirRef.y⟩
      | .passThrough =>
        applyHead stream fuel st (wrapCell ⟨head.x + st.dirRef.x, head.y + st.dirRef.y⟩)

/-- The initial React state of the component (before any interaction). -/
def initState : GameState :=
  { snake := INITIAL_SNAKE
    food := ⟨15, 15⟩
    direction := INITIAL_DIRECTION
    dirRef := INITIAL_DIRECTION
    gameOver := false
    score := 0
    isPlaying := false
    gameMode := .walls }

/-- States reachable from the initial component state through the
user-triggerable operations: key presses, game-loop ticks, the
reset/start/play-again button and the mode buttons. -/
inductive Reach : GameState → Prop where
  | boot : Reach initState
  | key : ∀ {st} (k : Key), Reach st → Reach (pressKey k st)
  | advance : ∀ {st st'} (stream : Nat → Cell) (fuel : Nat),
      Reach st → tick stream fuel st = some st' → Reach st'
  | reset : ∀ {st}, Reach st → Reach (resetGame st)
  | mode : ∀ {st} (m : GameMode), Reach st → Reach (setGameMode m st)

end AppJsx

namespace Canvas

/-- The `gridSize` state constant of the canvas variant (`useState(20)`). -/
def gridSize : Int := 20

/-- Keys handled by `handleKey`: Space (start/pause toggle) and the four
direction keys (arrow keys / WASD). -/
inductive Key where
  | space
  | up
  | down
  | left
  | right
deriving DecidableEq

/-- The `map` object of `handleKey`: delta vector per direction key,
`none` for Space (which is handled before the map lookup). -/
def keyDelta : Key → Option Cell
  | .space => none
  | .up => some ⟨0, -1⟩
  | .down => some ⟨0, 1⟩
  | .left => some ⟨-1, 0⟩
  | .right => some ⟨1, 0⟩

/-- The React state of the canvas component.  The snake list is tail-first:
the head is the LAST element (`curSnake[curSnake.length - 1]`).  The
`direction` state and the `dirRef` ref are kept in sync by an effect, so a
single field models both.  `speed` (a JS float stepped by `+0.3` and capped
at `20`) is modelled as a rational. -/
structure GameState where
  direction : Cell
  snake : List Cell
  food : Cell
  running : Bool
  speed : Rat
  score : Nat
  highScore : Nat
  wrapWalls : Bool
deriving DecidableEq

/-- The grid cells in the enumeration order of `randomFoodPosition`:
`for (x...) for (y...)`, x-major. -/
def gridCells (grid : Int) : List Cell :=
  (List.range grid.toNat).flatMap fun x =>
    (List.range grid.toNat).map fun y => ⟨(x : Int), (y : Int)⟩

/-- The `free` array of `randomFoodPosition`: grid cells not occupied by the
snake (the `taken` set is modelled by list membership; the string encoding
of a cell is injective on integer coordinates). -/
def freeCells (snakeArr : List Cell) (grid : Int) : List Cell :=
  (gridCells grid).filter fun c => !decide (c ∈ snakeArr)

/-- `randomFoodPosition(snakeArr, grid)`: pick a uniformly random free cell,
modelled by the random index `r` reduced mod the number of free cells; on a
fully occupied grid return the fallback `{x:0,y:0}`. -/
def randomFoodPosition (snakeArr : List Cell) (grid : Int) (r : Nat) : Cell :=
  if h : (freeCells snakeArr grid).length = 0 then ⟨0, 0⟩
  else
    (freeCells snakeArr grid).get
      ⟨r % (freeCells snakeArr grid).length, Nat.mod_lt r (Nat.pos_of_ne_zero h)⟩

/-- `handleKey` / `turn` reversal guard and direction update: reject the
request when `cur.x + nd.x === 0 && cur.y + nd.y === 0`. -/
def turn (nd : Cell) (st : GameState) : GameState :=
  if st.direction.x + nd.x = 0 ∧ st.direction.y + nd.y = 0 then st
  else { st with direction := nd }

/-- The keydown handler: Space toggles `running`; a direction key goes
through the reversal guard. -/
def handleKey (key : Key) (st : GameState) : GameState :=
  match key with
  | .space => { st with running := !st.running }
  | k =>
    match keyDelta k with
    | none => st
    | some nd => turn nd st

/-- Wall range test of `moveSnake` in solid mode. -/
def outOfRangeC (c : Cell) : Prop :=
  c.x < 0 ∨ gridSize ≤ c.x ∨ c.y < 0 ∨ gridSize ≤ c.y

instance : DecidablePred outOfRangeC := fun c => by
  unfold outOfRangeC; infer_instance

/-- Wrap-mode handling of one coordinate, the two sequential conditionals of
the source. -/
def wrapCoordC (v : Int) : Int :=
  let v1 := if v < 0 then gridSize - 1 else v
  if gridSize ≤ v1 then 0 else v1

/-- Wrap-mode handling of the new head. -/
def wrapCellC (c : Cell) : Cell := ⟨wrapCoordC c.x, wrapCoordC c.y⟩

/-- `endGame`: stop running and fold the score into the persisted high
score (`Math.max`). -/
def endGame (st : GameState) : GameState :=
  { st with running := false, highScore := max st.highScore st.score }

/-- The tail of `moveSnake` after wall handling: self-collision check against
the full current snake (tail included), then `push` of the new head, then
either the food branch (score, new random food, speed ramp) or `shift`
(drop the tail, which is the FIRST list element here). -/
def moveCore (r : Nat) (st : GameState) (newHead : Cell) : GameState :=
  if newHead ∈ st.snake then endGame st
  else
    if newHead = st.food then
      { st with snake := st.snake ++ [newHead]
                score := st.score + 1
                food := randomFoodPosition (st.snake ++ [newHead]) gridSize r
                speed := min 20 (st.speed + 3 / 10) }
    else
      { st with snake := (st.snake ++ [newHead]).tail }

/-- `moveSnake`: compute the raw new head from the current head (last list
element) and the direction, apply the wall policy (wrap, or solid-mode
`endGame` on an out-of-range head without touching the snake), then
`moveCore`.  The degenerate empty snake (never constructed by the
component) is left unchanged. -/
def moveSnake (r : Nat) (st : GameState) : GameState :=
  match st.snake.getLast? with
  | none => st
  | some head =>
    if st.wrapWalls then
      moveCore r st (wrapCellC ⟨head.x + st.direction.x, head.y + st.direction.y⟩)
    else
      if outOfRangeC ⟨head.x + st.direction.x, head.y + st.direction.y⟩ then endGame st
      else moveCore r st ⟨head.x + st.direction.x, head.y + st.direction.y⟩

/-- One animation-frame step that fires a move: `moveSnake` runs only while
`runningRef.current` holds. -/
def tickCanvas (r : Nat) (st : GameState) : GameState :=
  if st.running then moveSnake r st else st

/-- The initial snake `[{x:9,y:10},{x:10,y:10}]` (tail first, head last). -/
def startSnake : List Cell := [⟨9, 10⟩, ⟨10, 10⟩]

/-- `resetGame`: fixed initial snake, direction and speed, zero score, fresh
RANDOM food for the initial snake, and `running := false`.  The wall mode
and the high score survive a reset. -/
def resetGame (r : Nat) (st : GameState) : GameState :=
  { st with snake := startSnake
            direction := ⟨1, 0⟩
            food := randomFoodPosition startSnake gridSize r
            score := 0
            speed := 8
            running := false }

/-- The wall-mode toggle button. -/
def toggleWalls (st : GameState) : GameState :=
  { st with wrapWalls := !st.wrapWalls }

/-- The Clear High button: zeroes the score and the stored high score. -/
def clearHigh (st : GameState) : GameState :=
  { st with score := 0, highScore := 0 }

/-- The speed slider. -/
def setSpeed (v : Rat) (st : GameState) : GameState :=
  { st with speed := v }

/-- The initial component state: initial snake and direction, random initial
food (random index `r`), loaded high score `h`, wrap mode on, paused. -/
def initState (r h : Nat) : GameState :=
  { direction := ⟨1, 0⟩
    snake := startSnake
    food := randomFoodPosition startSnake gridSize r
    running := false
    speed := 8
    score := 0
    highScore := h
    wrapWalls := true }

/-- States reachable from some initial component state through the
user-triggerable operations: keydown (Space and direction keys), on-screen
`turn` buttons (the four unit deltas), frame ticks, Reset, the wall-mode
toggle, Clear High and the speed slider. -/
inductive Reach : GameState → Prop where
  | boot : ∀ (r h : Nat), Reach (initState r h)
  | key : ∀ {st} (k : Key), Reach st → Reach (handleKey k st)
  | press : ∀ {st} (k : Key), Reach st → keyDelta k ≠ none →
      Reach (turn ((keyDelta k).getD ⟨0, 0⟩) st)
  | advance : ∀ {st} (r : Nat), Reach st → Reach (tickCanvas r st)
  | reset : ∀ {st} (r : Nat), Reach st → Reach (resetGame r st)
  | toggle : ∀ {st}, Reach st → Reach (toggleWalls st)
  | clear : ∀ {st}, Reach st → Reach (clearHigh st)
  | slider : ∀ {st} (v : Rat), Reach st → Reach (setSpeed v st)

end Canvas

/-- The alive-state invariant of the App.jsx snake: no duplicate cells and
length at least one. -/
def AppJsx.Inv (st : AppJsx.GameState) : Prop :=
  st.snake.Nodup ∧ 1 ≤ st.snake.length

/-- The alive-state invariant of the canvas snake: no duplicate cells and
length at least one. -/
def Canvas.InvC (st : Canvas.GameState) : Prop :=
  st.snake.Nodup ∧ 1 ≤ st.snake.length

/-- For a committed direction produced by key k, a pair of keys whose
successive presses within one tick leave the pending direction at the exact
opposite of the committed direction (each press passes the guard because it
is checked against the PENDING value, not the committed one). -/
def AppJsx.revKeys : AppJsx.Key → AppJsx.Key × AppJsx.Key
  | .up => (.left, .down)
  | .down => (.left, .up)
  | .left => (.up, .right)
  | .right => (.up, .left)

/-- Same reversal pairs for the canvas key handler (Space is never a
direction key, so its entry is unused). -/
def Canvas.revKeysC : Canvas.Key → Canvas.Key × Canvas.Key
  | .space => (.space, .space)
  | .up => (.left, .down)
  | .down => (.left, .up)
  | .left => (.up, .right)
  | .right => (.up, .left)

/-- Cell number i of a boustrophedon (serpentine) enumeration of the 20 by
20 grid: row i / 20, column i % 20 left-to-right on even rows and
right-to-left on odd rows.  Consecutive cells are grid-adjacent, so a
prefix of this enumeration is a geometrically legal snake body. -/
def boustro (i : Nat) : Cell :=
  let r := i / 20
  let c := i % 20
  if r % 2 = 0 then ⟨(c : Int), (r : Int)⟩ else ⟨19 - (c : Int), (r : Int)⟩

/-- A snake occupying every cell of the 20 by 20 grid. -/
def fullGridSnake : List Cell := (List.range 400).map boustro

/-- A 399-cell snake (every grid cell except the last corner of the
serpentine path), tail-first as in the canvas variant; its head is
boustro 398 = (1,19) and the single free cell is boustro 399 = (0,19). -/
def c6snake : List Cell := (List.range 399).map boustro

/-- Canvas state one tick before the snake fills the whole grid: the head
(1,19) moves left onto the food (0,19), the last free cell. -/
def c6state : Canvas.GameState :=
  { direction := ⟨-1, 0⟩
    snake := c6snake
    food := ⟨0, 19⟩
    running := true
    speed := 8
    score := 0
    highScore := 0
    wrapWalls := true }

/-- Canvas state about to eat: head (10,10) moves right onto food (11,10). -/
def c6eatState : Canvas.GameState :=
  { direction := ⟨1, 0⟩
    snake := [⟨9, 10⟩, ⟨10, 10⟩]
    food := ⟨11, 10⟩
    running := true
    speed := 8
    score := 0
    highScore := 0
    wrapWalls := true }

/-- App.jsx state about to eat: head (10,10) moves right onto food (11,10). -/
def c6eatStateApp : AppJsx.GameState :=
  { snake := [⟨10, 10⟩]
    food := ⟨11, 10⟩
    direction := ⟨1, 0⟩
    dirRef := ⟨1, 0⟩
    gameOver := false
    score := 0
    isPlaying := true
    gameMode := .walls }

/-- App.jsx state whose snake loops through a 2 by 2 square: head (5,5),
body (6,5), (6,6), tail (5,6); the committed and pending direction (0,1)
points from the head onto the tail cell. -/
def c1exState : AppJsx.GameState :=
  { snake := [⟨5, 5⟩, ⟨6, 5⟩, ⟨6, 6⟩, ⟨5, 6⟩]
    food := ⟨15, 15⟩
    direction := ⟨0, 1⟩
    dirRef := ⟨0, 1⟩
    gameOver := false
    score := 0
    isPlaying := true
    gameMode := .walls }

/-- The same 2 by 2 loop in the canvas representation (tail first, head
last): tail (5,6), body (6,6), (6,5), head (5,5), direction (0,1). -/
def c1exStateCanvas : Canvas.GameState :=
  { direction := ⟨0, 1⟩
    snake := [⟨5, 6⟩, ⟨6, 6⟩, ⟨6, 5⟩, ⟨5, 5⟩]
    food := ⟨15, 15⟩
    running := true
    speed := 8
    score := 0
    highScore := 0
    wrapWalls := true }

/-- App.jsx state moving right with committed = pending = (1,0). -/
def c3appState : AppJsx.GameState :=
  { snake := [⟨10, 10⟩]
    food := ⟨15, 15⟩
    direction := ⟨1, 0⟩
    dirRef := ⟨1, 0⟩
    gameOver := false
    score := 0
    isPlaying := true
    gameMode := .walls }

/-- Canvas state moving right, used for the key-handler claims. -/
def c3canState : Canvas.GameState :=
  { direction := ⟨1, 0⟩
    snake := Canvas.startSnake
    food := ⟨0, 0⟩
    running := true
    speed := 8
    score := 0
    highScore := 0
    wrapWalls := true }

/-- The canvas component state reached by: load (random index 0, stored
high score 0), toggle the wall mode to Solid, press Space to start, then
let 10 ticks elapse.  The head runs from (10,10) rightwards into the wall,
so the 10th tick executes endGame: this is the game-over state. -/
def c4trace : Canvas.GameState :=
  (Canvas.tickCanvas 0)^[10]
    (Canvas.handleKey .space (Canvas.toggleWalls (Canvas.initState 0 0)))

/-- App.jsx state in the game-over phase. -/
def c4overState : AppJsx.GameState :=
  { snake := [⟨19, 10⟩]
    food := ⟨15, 15⟩
    direction := ⟨1, 0⟩
    dirRef := ⟨1, 0⟩
    gameOver := true
    score := 0
    isPlaying := false
    gameMode := .walls }

/-- App.jsx state with the head at (19,10) moving right (spec scenario). -/
def c7appState : AppJsx.GameState :=
  { snake := [⟨19, 10⟩]
    food := ⟨15, 15⟩
    direction := ⟨1, 0⟩
    dirRef := ⟨1, 0⟩
    gameOver := false
    score := 0
    isPlaying := true
    gameMode := .walls }

/-- Canvas state with the head at (19,10) moving right, Solid mode. -/
def c7canState : Canvas.GameState :=
  { direction := ⟨1, 0⟩
    snake := [⟨18, 10⟩, ⟨19, 10⟩]
    food := ⟨5, 5⟩
    running := true
    speed := 8
    score := 0
    highScore := 0
    wrapWalls := false }

/-- App.jsx state with the head at (19,10) moving right, pass-through mode. -/
def c8appState : AppJsx.GameState :=
  { snake := [⟨19, 10⟩]
    food := ⟨15, 15⟩
    direction := ⟨1, 0⟩
    dirRef := ⟨1, 0⟩
    gameOver := false
    score := 0
    isPlaying := true
    gameMode := .passThrough }

/-- Canvas state with the head at (19,10) moving right, Wrap mode. -/
def c8canState : Canvas.GameState :=
  { direction := ⟨1, 0⟩
    snake := [⟨18, 10⟩, ⟨19, 10⟩]
    food := ⟨5, 5⟩
    running := true
    speed := 8
    score := 0
    highScore := 0
    wrapWalls := true }

/-- Canvas state in Wrap mode whose body occupies the cell (0,10) behind
the opposite wall: the snake ran (1,10) to (0,10), down to (0,9), through
the wrap to (19,9) and up to the head (19,10); it is moving right. -/
def c8exState : Canvas.GameState :=
  { direction := ⟨1, 0⟩
    snake := [⟨1, 10⟩, ⟨0, 10⟩, ⟨0, 9⟩, ⟨19, 9⟩, ⟨19, 10⟩]
    food := ⟨5, 5⟩
    running := true
    speed := 8
    score := 0
    highScore := 0
    wrapWalls := true }

/-! Helper lemmas. -/

theorem mem_of_getLast?_eq {α : Type} {l : List α} {a : α}
    (h : l.getLast? = some a) : a ∈ l := by
  cases l with
  | nil => simp at h
  | cons b t =>
    have hne : b :: t ≠ [] := by simp
    rw [List.getLast?_eq_getLast_of_ne_nil hne] at h
    have h' : (b :: t).getLast hne = a := by injection h
    rw [← h']
    exact List.getLast_mem hne

theorem mem_freeCells_iff {snakeArr : List Cell} {grid : Int} {c : Cell} :
    c ∈ Canvas.freeCells snakeArr grid ↔ c ∈ Canvas.gridCells grid ∧ c ∉ snakeArr := by
  simp [Canvas.freeCells, List.mem_filter]

theorem randomFoodPosition_cases (snakeArr : List Cell) (grid : Int) (r : Nat) :
    Canvas.randomFoodPosition snakeArr grid r ∈ Canvas.freeCells snakeArr grid ∨
      (Canvas.freeCells snakeArr grid = [] ∧
        Canvas.randomFoodPosition snakeArr grid r = ⟨0, 0⟩) := by
  unfold Canvas.randomFoodPosition
  split
  · next h => exact Or.inr ⟨List.length_eq_zero.mp h, rfl⟩
  · exact Or.inl (List.get_mem _ _ _)

theorem randomFoodPosition_not_mem {snakeArr : List Cell} {grid : Int} {r : Nat}
    (h : Canvas.freeCells snakeArr grid ≠ []) :
    Canvas.randomFoodPosition snakeArr grid r ∉ snakeArr := by
  rcases randomFoodPosition_cases snakeArr grid r with hmem | ⟨hnil, _⟩
  · exact (mem_freeCells_iff.mp hmem).2
  · exact absurd hnil h

theorem randomFoodPosition_empty {snakeArr : List Cell} {grid : Int} (r : Nat)
    (h : Canvas.freeCells snakeArr grid = []) :
    Canvas.randomFoodPosition snakeArr grid r = ⟨0, 0⟩ := by
  unfold Canvas.randomFoodPosition
  split
  · rfl
  · next h' => exact absurd (by rw [h]; rfl) h'

theorem generateFoodAux_some_not_mem {snake : List Cell} {stream : Nat → Cell} :
    ∀ (fuel idx : Nat) {f : Cell},
      AppJsx.generateFoodAux snake stream idx fuel = some f → f ∉ snake := by
  intro fuel
  induction fuel with
  | zero => intro idx f h; simp [AppJsx.generateFoodAux] at h
  | succ n ih =>
    intro idx f h
    simp only [AppJsx.generateFoodAux] at h
    split at h
    · exact ih (idx + 1) h
    · next hmem =>
      have hf : stream idx = f := by injection h
      rw [← hf]
      exact hmem

theorem generateFoodAux_halts_of_free {snake : List Cell} {stream : Nat → Cell} :
    ∀ (k idx : Nat), stream (idx + k) ∉ snake →
      (AppJsx.generateFoodAux snake stream idx (k + 1)).isSome = true := by
  intro k
  induction k with
  | zero =>
    intro idx h
    simp only [Nat.add_zero] at h
    simp [AppJsx.generateFoodAux, h]
  | succ n ih =>
    intro idx h
    simp only [AppJsx.generateFoodAux]
    split
    · have h' : stream (idx + 1 + n) ∉ snake := by
        have : idx + 1 + n = idx + (n + 1) := by omega
        rw [this]
        exact h
      exact ih (idx + 1) h'
    · simp

theorem fullGrid_aux_none :
    ∀ (fuel idx : Nat),
      AppJsx.generateFoodAux fullGridSnake (fun _ => ⟨0, 0⟩) idx fuel = none := by
  intro fuel
  induction fuel with
  | zero => intro idx; rfl
  | succ n ih =>
    intro idx
    simp only [AppJsx.generateFoodAux]
    rw [if_pos (by decide : (⟨0, 0⟩ : Cell) ∈ fullGridSnake)]
    exact ih (idx + 1)

theorem wrapCoord_eq_emod {v : Int} (h1 : -1 ≤ v) (h2 : v ≤ 20) :
    AppJsx.wrapCoord v = v % 20 := by
  have h3 : v = -1 ∨ (0 ≤ v ∧ v < 20) ∨ v = 20 := by omega
  rcases h3 with rfl | ⟨ha, hb⟩ | rfl
  · decide
  · have hv1 : ¬ v < 0 := by omega
    have hv2 : ¬ AppJsx.GRID_SIZE ≤ v := by unfold AppJsx.GRID_SIZE; omega
    simp only [AppJsx.wrapCoord, if_neg hv1, if_neg hv2]
    exact (Int.emod_eq_of_lt ha hb).symm
  · decide

theorem wrapCoordC_eq_emod {v : Int} (h1 : -1 ≤ v) (h2 : v ≤ 20) :
    Canvas.wrapCoordC v = v % 20 := by
  have h3 : v = -1 ∨ (0 ≤ v ∧ v < 20) ∨ v = 20 := by omega
  rcases h3 with rfl | ⟨ha, hb⟩ | rfl
  · decide
  · have hv1 : ¬ v < 0 := by omega
    have hv2 : ¬ Canvas.gridSize ≤ v := by unfold Canvas.gridSize; omega
    simp only [Canvas.wrapCoordC, if_neg hv1, if_neg hv2]
    exact (Int.emod_eq_of_lt ha hb).symm
  · decide

theorem wrapCell_id {c : Cell} (h : ¬ AppJsx.outOfRange c) : AppJsx.wrapCell c = c := by
  unfold AppJsx.outOfRange at h
  push_neg at h
  obtain ⟨h1, h2, h3, h4⟩ := h
  unfold AppJsx.wrapCell AppJsx.wrapCoord
  have hx1 : ¬ c.x < 0 := by omega
  have hy1 : ¬ c.y < 0 := by omega
  have hx2 : ¬ AppJsx.GRID_SIZE ≤ c.x := by omega
  have hy2 : ¬ AppJsx.GRID_SIZE ≤ c.y := by omega
  simp only [if_neg hx1, if_neg hy1, if_neg hx2, if_neg hy2]

theorem wrapCellC_id {c : Cell} (h : ¬ Canvas.outOfRangeC c) : Canvas.wrapCellC c = c := by
  unfold Canvas.outOfRangeC at h
  push_neg at h
  obtain ⟨h1, h2, h3, h4⟩ := h
  unfold Canvas.wrapCellC Canvas.wrapCoordC
  have hx1 : ¬ c.x < 0 := by omega
  have hy1 : ¬ c.y < 0 := by omega
  have hx2 : ¬ Canvas.gridSize ≤ c.x := by omega
  have hy2 : ¬ Canvas.gridSize ≤ c.y := by omega
  simp only [if_neg hx1, if_neg hy1, if_neg hx2, if_neg hy2]

theorem applyHead_inv {stream : Nat → Cell} {fuel : Nat} {st st' : AppJsx.GameState}
    {newHead : Cell} (hinv : AppJsx.Inv st)
    (h : AppJsx.applyHead stream fuel st newHead = some st') : AppJsx.Inv st' := by
  obtain ⟨hnd, hlen⟩ := hinv
  unfold AppJsx.applyHead at h
  split at h
  · cases h
    exact ⟨hnd, hlen⟩
  · next hmem =>
    split at h
    · split at h
      · exact absurd h (by simp)
      · cases h
        exact ⟨List.nodup_cons.mpr ⟨hmem, hnd⟩, by simp⟩
    · cases h
      refine ⟨List.Nodup.sublist (List.dropLast_sublist _)
        (List.nodup_cons.mpr ⟨hmem, hnd⟩), ?_⟩
      rw [List.length_dropLast]
      simp only [List.length_cons]
      omega

theorem tick_inv {stream : Nat → Cell} {fuel : Nat} {st st' : AppJsx.GameState}
    (hinv : AppJsx.Inv st) (h : AppJsx.tick stream fuel st = some st') :
    AppJsx.Inv st' := by
  unfold AppJsx.tick at h
  split at h
  · cases h
    exact hinv
  · split at h
    · exact absurd h (by simp)
    · split at h
      · split at h
        · cases h
          exact ⟨hinv.1, hinv.2⟩
        · exact applyHead_inv hinv h
      · exact applyHead_inv hinv h

theorem append_singleton_nodup {l : List Cell} {a : Cell}
    (hnd : l.Nodup) (hmem : a ∉ l) : (l ++ [a]).Nodup := by
  rw [List.nodup_append]
  refine ⟨hnd, List.nodup_singleton a, ?_⟩
  intro b hb hb'
  simp only [List.mem_singleton] at hb'
  subst hb'
  exact hmem hb

theorem moveCore_inv {r : Nat} {st : Canvas.GameState} {newHead : Cell}
    (hinv : Canvas.InvC st) : Canvas.InvC (Canvas.moveCore r st newHead) := by
  obtain ⟨hnd, hlen⟩ := hinv
  unfold Canvas.moveCore
  split
  · exact ⟨hnd, hlen⟩
  · next hmem =>
    split
    · refine ⟨append_singleton_nodup hnd hmem, ?_⟩
      simp
    · refine ⟨List.Nodup.sublist (List.tail_sublist _)
        (append_singleton_nodup hnd hmem), ?_⟩
      rw [List.length_tail]
      simp only [List.length_append, List.length_singleton]
      omega

theorem moveSnake_inv {r : Nat} {st : Canvas.GameState}
    (hinv : Canvas.InvC st) : Canvas.InvC (Canvas.moveSnake r st) := by
  unfold Canvas.moveSnake
  split
  · exact hinv
  · split
    · exact moveCore_inv hinv
    · split
      · exact hinv
      · exact moveCore_inv hinv

theorem invC_congr {st st' : Canvas.GameState} (h : st'.snake = st.snake)
    (hi : Canvas.InvC st) : Canvas.InvC st' := by
  unfold Canvas.InvC
  rw [h]
  exact hi

theorem handleKey_snake (k : Canvas.Key) (st : Canvas.GameState) :
    (Canvas.handleKey k st).snake = st.snake := by
  cases k <;> simp only [Canvas.handleKey, Canvas.keyDelta, Canvas.turn] <;>
    first
      | rfl
      | (split <;> rfl)

theorem turn_snake (nd : Cell) (st : Canvas.GameState) :
    (Canvas.turn nd st).snake = st.snake := by
  unfold Canvas.turn
  split <;> rfl

theorem reach_inv_appjsx {st : AppJsx.GameState} (h : AppJsx.Reach st) :
    AppJsx.Inv st := by
  induction h with
  | boot => exact ⟨by decide, by decide⟩
  | key k _ ih => exact ih
  | advance stream fuel _ heq ih => exact tick_inv ih heq
  | reset _ ih =>
    exact ⟨(by decide : AppJsx.INITIAL_SNAKE.Nodup),
      (by decide : 1 ≤ AppJsx.INITIAL_SNAKE.length)⟩
  | mode m _ ih =>
    unfold AppJsx.setGameMode
    split
    · exact ih
    · exact ih

theorem reach_inv_canvas {st : Canvas.GameState} (h : Canvas.Reach st) :
    Canvas.InvC st := by
  induction h with
  | boot r h =>
    exact ⟨(by decide : Canvas.startSnake.Nodup),
      (by decide : 1 ≤ Canvas.startSnake.length)⟩
  | key k _ ih => exact invC_congr (handleKey_snake k _) ih
  | press k _ hne ih => exact invC_congr (turn_snake _ _) ih
  | advance r _ ih =>
    unfold Canvas.tickCanvas
    split
    · exact moveSnake_inv ih
    · exact ih
  | reset r _ ih =>
    exact ⟨(by decide : Canvas.startSnake.Nodup),
      (by decide : 1 ≤ Canvas.startSnake.length)⟩
  | toggle _ ih => exact invC_congr rfl ih
  | clear _ ih => exact invC_congr rfl ih
  | slider v _ ih => exact invC_congr rfl ih

theorem reach_iterate {st : Canvas.GameState} (r n : Nat) (h : Canvas.Reach st) :
    Canvas.Reach ((Canvas.tickCanvas r)^[n] st) := by
  induction n with
  | zero => exact h
  | succ m ih =>
    rw [Function.iterate_succ_apply']
    exact Canvas.Reach.advance r ih

/-! Claim theorems. -/

/-- C2 counterexample: reset does not yield the canonical Paused state.  In
App.jsx, resetGame sets isPlaying to true (Phase = Running, not Paused); in
the canvas variant the food after reset depends on the random draw, so two
resets from the same state can yield different states. -/
theorem c2_counterexample :
    (AppJsx.resetGame AppJsx.initState).isPlaying = true ∧
    Canvas.resetGame 0 (Canvas.initState 0 0) ≠ Canvas.resetGame 1 (Canvas.initState 0 0) := by
  constructor
  · rfl
  · decide

/-- C2 amended: reset ignores the prior state (up to the surviving
gameMode / wall-mode / high-score fields) and is idempotent; it restores
the fixed initial snake, direction, score (and speed in the canvas
variant); but App.jsx resets INTO the Running phase (isPlaying = true), and
the canvas variant regenerates Food randomly for the initial snake (fixed
only given the random index) with running = false. -/
theorem c2_reset_behaviour :
    (∀ st : AppJsx.GameState,
      AppJsx.resetGame st =
        { st with snake := AppJsx.INITIAL_SNAKE, food := ⟨15, 15⟩,
                  direction := AppJsx.INITIAL_DIRECTION, dirRef := AppJsx.INITIAL_DIRECTION,
                  gameOver := false, score := 0, isPlaying := true }) ∧
    (∀ st st' : AppJsx.GameState, st.gameMode = st'.gameMode →
      AppJsx.resetGame st = AppJsx.resetGame st') ∧
    (∀ st : AppJsx.GameState, AppJsx.resetGame (AppJsx.resetGame st) = AppJsx.resetGame st) ∧
    (∀ (r : Nat) (st : Canvas.GameState),
      Canvas.resetGame r st =
        { st with snake := Canvas.startSnake, direction := ⟨1, 0⟩,
                  food := Canvas.randomFoodPosition Canvas.startSnake Canvas.gridSize r,
                  score := 0, speed := 8, running := false }) ∧
    (∀ (r r' : Nat) (st : Canvas.GameState),
      Canvas.resetGame r (Canvas.resetGame r' st) = Canvas.resetGame r st) := by
  refine ⟨fun st => rfl, ?_, fun st => rfl, fun r st => rfl, fun r r' st => rfl⟩
  intro st st' h
  cases st
  cases st'
  simp only [AppJsx.resetGame] at h ⊢
  simp_all

/-- C2 witness: the prior-state independence conjunct applied to two
concrete states sharing the walls mode. -/
theorem c2_witness :
    AppJsx.resetGame AppJsx.initState = AppJsx.resetGame (AppJsx.pressKey .up AppJsx.initState) :=
  c2_reset_behaviour.2.1 AppJsx.initState (AppJsx.pressKey .up AppJsx.initState) rfl

/-- C3 counterexample: with committed and pending direction (1,0), the key
sequence Up then Left inside one tick leaves the pending direction at
(-1,0), the exact opposite of the committed direction; the next tick
consumes it and moves the head from (10,10) to (9,10). -/
theorem c3_counterexample :
    (AppJsx.pressKey .left (AppJsx.pressKey .up c3appState)).dirRef =
      negCell c3appState.direction ∧
    AppJsx.tick (fun _ => ⟨0, 0⟩) 1 (AppJsx.pressKey .left (AppJsx.pressKey .up c3appState)) =
      some { c3appState with snake := [⟨9, 10⟩], direction := ⟨-1, 0⟩, dirRef := ⟨-1, 0⟩ } := by
  constructor
  · decide
  · decide

/-- C3 amended: exactly one pending direction value is buffered between
ticks, but each request is validated against the PENDING value rather than
the committed one, so for every committed direction two key presses within
one tick leave the pending (next consumed) direction at its exact
opposite. -/
theorem c3_two_presses_reverse :
    (∀ k : AppJsx.Key,
      AppJsx.handleKeyPress true false
        (AppJsx.handleKeyPress true false (AppJsx.keyDir k) (AppJsx.revKeys k).1)
        (AppJsx.revKeys k).2 = negCell (AppJsx.keyDir k)) ∧
    (∀ (k : Canvas.Key) (nd : Cell) (st : Canvas.GameState),
      Canvas.keyDelta k = some nd → st.direction = nd →
      (Canvas.handleKey (Canvas.revKeysC k).2
        (Canvas.handleKey (Canvas.revKeysC k).1 st)).direction = negCell nd) := by
  constructor
  · intro k
    cases k <;> decide
  · intro k nd st hk hdir
    cases k
    · simp [Canvas.keyDelta] at hk
    all_goals
      simp only [Canvas.keyDelta, Option.some.injEq] at hk
    all_goals
      subst hk
    all_goals
      simp [Canvas.revKeysC, Canvas.handleKey, Canvas.keyDelta, Canvas.turn, hdir, negCell]

/-- C3 witness: the canvas conjunct instantiated with committed direction
(1,0) produced by the Right key. -/
theorem c3_witness :
    (Canvas.handleKey (Canvas.revKeysC .right).2
      (Canvas.handleKey (Canvas.revKeysC .right).1 c3canState)).direction = negCell ⟨1, 0⟩ :=
  c3_two_presses_reverse.2 .right ⟨1, 0⟩ c3canState rfl rfl

/-- C9: a single request for the exact opposite of the pending = committed
direction is a silent no-op in both variants: the full state (direction
buffer included) is returned unchanged. -/
theorem c9_reverse_noop :
    (∀ (st : AppJsx.GameState) (k : AppJsx.Key),
      AppJsx.keyDir k = negCell st.dirRef → AppJsx.pressKey k st = st) ∧
    (∀ (st : Canvas.GameState) (k : Canvas.Key) (nd : Cell),
      Canvas.keyDelta k = some nd → nd = negCell st.direction →
      Canvas.handleKey k st = st) ∧
    (∀ (st : Canvas.GameState) (nd : Cell),
      nd = negCell st.direction → Canvas.turn nd st = st) := by
  have hturn : ∀ (st : Canvas.GameState) (nd : Cell),
      nd = negCell st.direction → Canvas.turn nd st = st := by
    intro st nd h
    subst h
    unfold Canvas.turn
    rw [if_pos ⟨by simp [negCell], by simp [negCell]⟩]
  refine ⟨?_, ?_, hturn⟩
  · intro st k h
    have hst : AppJsx.handleKeyPress st.isPlaying st.gameOver st.dirRef k = st.dirRef := by
      unfold AppJsx.handleKeyPress
      split
      · rfl
      · cases k <;>
          simp only [AppJsx.keyDir, negCell, Cell.mk.injEq] at h <;>
          dsimp only <;>
          rw [if_neg (by omega)]
    unfold AppJsx.pressKey
    rw [hst]
  · intro st k nd hk hnd
    cases k
    · exact absurd hk (by simp [Canvas.keyDelta])
    all_goals
      simp only [Canvas.keyDelta, Option.some.injEq] at hk
      subst hk
      exact hturn st _ hnd

/-- C9 witness: with pending = committed direction (1,0), an exact-reversal
request (Left) leaves the state unchanged in both variants. -/
theorem c9_witness :
    AppJsx.pressKey .left c3appState = c3appState ∧
    Canvas.handleKey .left c3canState = c3canState ∧
    Canvas.turn ⟨-1, 0⟩ c3canState = c3canState :=
  ⟨c9_reverse_noop.1 c3appState .left (by decide),
   c9_reverse_noop.2.1 c3canState .left ⟨-1, 0⟩ rfl (by decide),
   c9_reverse_noop.2.2 c3canState ⟨-1, 0⟩ (by decide)⟩

/-- C4 counterexample: a reachable canvas game-over state (Solid mode, the
head ran from (10,10) into the right wall, so the 10th tick executed
endGame) from which the Space toggle transitions back to Running WITHOUT a
reset, and the next tick performs moveSnake again (which ends the game once
more, flipping running back to false). -/
theorem c4_counterexample :
    Canvas.Reach c4trace ∧
    c4trace.running = false ∧
    c4trace.snake = [⟨18, 10⟩, ⟨19, 10⟩] ∧
    (Canvas.handleKey .space c4trace).running = true ∧
    Canvas.tickCanvas 0 (Canvas.handleKey .space c4trace) =
      Canvas.endGame (Canvas.handleKey .space c4trace) := by
  refine ⟨?_, by decide, by decide, by decide, by decide⟩
  exact reach_iterate 0 10
    (Canvas.Reach.key .space (Canvas.Reach.toggle (Canvas.Reach.boot 0 0)))

/-- C4 amended: in App.jsx the Over phase is absorbing for every operation
except resetGame (the tick is a no-op, key presses are no-ops, the mode
buttons cannot change the phase, and only resetGame clears gameOver); in
the canvas variant there is no distinct Over phase: endGame merely sets
running to false, and the Space toggle sets it back to true without any
reset. -/
theorem c4_over_absorbing :
    (∀ (stream : Nat → Cell) (fuel : Nat) (st : AppJsx.GameState),
      st.gameOver = true → AppJsx.tick stream fuel st = some st) ∧
    (∀ (k : AppJsx.Key) (st : AppJsx.GameState),
      st.gameOver = true → AppJsx.pressKey k st = st) ∧
    (∀ (m : AppJsx.GameMode) (st : AppJsx.GameState),
      (AppJsx.setGameMode m st).gameOver = st.gameOver) ∧
    (∀ st : AppJsx.GameState, (AppJsx.resetGame st).gameOver = false) ∧
    (∀ st : Canvas.GameState,
      (Canvas.endGame st).running = false ∧
      (Canvas.handleKey .space (Canvas.endGame st)).running = true) := by
  refine ⟨?_, ?_, ?_, fun st => rfl, fun st => ⟨rfl, rfl⟩⟩
  · intro stream fuel st h
    unfold AppJsx.tick
    rw [if_pos (by rw [h, Bool.or_true])]
  · intro k st h
    have hd : AppJsx.handleKeyPress st.isPlaying st.gameOver st.dirRef k = st.dirRef := by
      unfold AppJsx.handleKeyPress
      rw [if_pos (by rw [h, Bool.or_true])]
    unfold AppJsx.pressKey
    rw [hd]
  · intro m st
    unfold AppJsx.setGameMode
    split <;> rfl

/-- C4 witness: the App.jsx conjuncts applied in a concrete game-over
state, and the canvas conjunct applied to the initial state. -/
theorem c4_witness :
    AppJsx.tick (fun _ => ⟨0, 0⟩) 0 c4overState = some c4overState ∧
    AppJsx.pressKey .up c4overState = c4overState ∧
    (Canvas.endGame (Canvas.initState 0 0)).running = false ∧
    (Canvas.handleKey .space (Canvas.endGame (Canvas.initState 0 0))).running = true :=
  ⟨c4_over_absorbing.1 (fun _ => ⟨0, 0⟩) 0 c4overState rfl,
   c4_over_absorbing.2.1 .up c4overState rfl,
   (c4_over_absorbing.2.2.2.2 (Canvas.initState 0 0)).1,
   (c4_over_absorbing.2.2.2.2 (Canvas.initState 0 0)).2⟩

theorem tick_walls {stream : Nat → Cell} {fuel : Nat} {st : AppJsx.GameState}
    {hd : Cell} {rest : List Cell}
    (hp : st.isPlaying = true) (hg : st.gameOver = false) (hs : st.snake = hd :: rest)
    (hm : st.gameMode = .walls) :
    AppJsx.tick stream fuel st =
      if AppJsx.outOfRange ⟨hd.x + st.dirRef.x, hd.y + st.dirRef.y⟩ then
        some { st with gameOver := true, isPlaying := false, direction := st.dirRef }
      else AppJsx.applyHead stream fuel st ⟨hd.x + st.dirRef.x, hd.y + st.dirRef.y⟩ := by
  unfold AppJsx.tick
  rw [hp, hg, hs, hm]
  rfl

theorem tick_pass {stream : Nat → Cell} {fuel : Nat} {st : AppJsx.GameState}
    {hd : Cell} {rest : List Cell}
    (hp : st.isPlaying = true) (hg : st.gameOver = false) (hs : st.snake = hd :: rest)
    (hm : st.gameMode = .passThrough) :
    AppJsx.tick stream fuel st =
      AppJsx.applyHead stream fuel st
        (AppJsx.wrapCell ⟨hd.x + st.dirRef.x, hd.y + st.dirRef.y⟩) := by
  unfold AppJsx.tick
  rw [hp, hg, hs, hm]
  rfl

theorem moveSnake_eq {r : Nat} {st : Canvas.GameState} {hd : Cell}
    (hlast : st.snake.getLast? = some hd) :
    Canvas.moveSnake r st =
      if st.wrapWalls then
        Canvas.moveCore r st
          (Canvas.wrapCellC ⟨hd.x + st.direction.x, hd.y + st.direction.y⟩)
      else
        if Canvas.outOfRangeC ⟨hd.x + st.direction.x, hd.y + st.direction.y⟩ then
          Canvas.endGame st
        else Canvas.moveCore r st ⟨hd.x + st.direction.x, hd.y + st.direction.y⟩ := by
  unfold Canvas.moveSnake
  rw [hlast]

/-- C1 counterexample: the snake loops through a 2 by 2 square with the
head about to enter the cell currently holding the tail.  The claim says
the game continues with the snake translated; in fact both variants treat
the move as self-collision and end the game with the snake unchanged. -/
theorem c1_counterexample :
    c1exState.snake.length = 4 ∧
    c1exState.snake.getLast? = some ⟨5, 6⟩ ∧
    AppJsx.tick (fun _ => ⟨0, 0⟩) 1 c1exState =
      some { c1exState with gameOver := true, isPlaying := false } ∧
    Canvas.moveSnake 0 c1exStateCanvas = Canvas.endGame c1exStateCanvas ∧
    (Canvas.moveSnake 0 c1exStateCanvas).running = false ∧
    (Canvas.moveSnake 0 c1exStateCanvas).snake = c1exStateCanvas.snake := by
  refine ⟨rfl, rfl, by decide, by decide, by decide, by decide⟩

/-- C1 amended: when the snake moves without growing and the new (in-range)
head targets the current tail cell, the move IS treated as self-collision —
the check runs against the body before the tail is dropped — so the game
ends with the snake unchanged, in both variants. -/
theorem c1_tail_move_collides :
    (∀ (stream : Nat → Cell) (fuel : Nat) (st : AppJsx.GameState) (hd t : Cell)
        (rest : List Cell),
      st.isPlaying = true → st.gameOver = false →
      st.snake = hd :: rest → st.snake.getLast? = some t →
      (⟨hd.x + st.dirRef.x, hd.y + st.dirRef.y⟩ : Cell) = t →
      ¬ AppJsx.outOfRange t →
      AppJsx.tick stream fuel st =
        some { st with gameOver := true, isPlaying := false, direction := st.dirRef }) ∧
    (∀ (r : Nat) (st : Canvas.GameState) (hd t : Cell),
      st.snake.getLast? = some hd → st.snake.head? = some t →
      (⟨hd.x + st.direction.x, hd.y + st.direction.y⟩ : Cell) = t →
      ¬ Canvas.outOfRangeC t →
      Canvas.moveSnake r st = Canvas.endGame st) := by
  constructor
  · intro stream fuel st hd t rest hp hg hs hlast heq hin
    have hmem : t ∈ st.snake := mem_of_getLast?_eq hlast
    have happ : AppJsx.applyHead stream fuel st t =
        some { st with gameOver := true, isPlaying := false, direction := st.dirRef } := by
      unfold AppJsx.applyHead
      rw [if_pos hmem]
    cases hgm : st.gameMode
    · rw [tick_walls hp hg hs hgm, heq, if_neg hin, happ, hgm]
    · rw [tick_pass hp hg hs hgm, heq, wrapCell_id hin, happ, hgm]
  · intro r st hd t hlast hhead heq hin
    have hmem : t ∈ st.snake := List.mem_of_mem_head? (Option.mem_def.mpr hhead)
    have hcore : Canvas.moveCore r st t = Canvas.endGame st := by
      unfold Canvas.moveCore
      rw [if_pos hmem]
    rw [moveSnake_eq hlast]
    by_cases hw : st.wrapWalls = true
    · rw [if_pos hw, heq, wrapCellC_id hin, hcore]
    · rw [if_neg hw, heq, if_neg hin, hcore]

/-- C1 witness of the amended claim: the 2 by 2 loop state in each variant. -/
theorem c1_witness :
    AppJsx.tick (fun _ => ⟨0, 0⟩) 1 c1exState =
      some { c1exState with gameOver := true, isPlaying := false,
                            direction := c1exState.dirRef } ∧
    Canvas.moveSnake 5 c1exStateCanvas = Canvas.endGame c1exStateCanvas :=
  ⟨c1_tail_move_collides.1 (fun _ => ⟨0, 0⟩) 1 c1exState ⟨5, 5⟩ ⟨5, 6⟩
      [⟨6, 5⟩, ⟨6, 6⟩, ⟨5, 6⟩] rfl rfl rfl rfl (by decide) (by decide),
   c1_tail_move_collides.2 5 c1exStateCanvas ⟨5, 5⟩ ⟨5, 6⟩ rfl rfl (by decide) (by decide)⟩

/-- C7: in Solid mode an out-of-range new head ends the game immediately:
App.jsx sets gameOver and stops playing, leaving snake, food and score
untouched (only the pending direction is still committed); the canvas
variant calls endGame, which only flips running and folds the score into
the high score, so snake, food and score are unchanged. -/
theorem c7_solid_wall_over :
    (∀ (stream : Nat → Cell) (fuel : Nat) (st : AppJsx.GameState) (hd : Cell)
        (rest : List Cell),
      st.isPlaying = true → st.gameOver = false → st.gameMode = .walls →
      st.snake = hd :: rest →
      AppJsx.outOfRange ⟨hd.x + st.dirRef.x, hd.y + st.dirRef.y⟩ →
      AppJsx.tick stream fuel st =
        some { st with gameOver := true, isPlaying := false, direction := st.dirRef }) ∧
    (∀ (r : Nat) (st : Canvas.GameState) (hd : Cell),
      st.wrapWalls = false → st.snake.getLast? = some hd →
      Canvas.outOfRangeC ⟨hd.x + st.direction.x, hd.y + st.direction.y⟩ →
      Canvas.moveSnake r st = Canvas.endGame st) ∧
    (∀ st : Canvas.GameState,
      (Canvas.endGame st).snake = st.snake ∧ (Canvas.endGame st).food = st.food ∧
      (Canvas.endGame st).score = st.score ∧ (Canvas.endGame st).direction = st.direction) := by
  refine ⟨?_, ?_, fun st => ⟨rfl, rfl, rfl, rfl⟩⟩
  · intro stream fuel st hd rest hp hg hm hs hoor
    rw [tick_walls hp hg hs hm, if_pos hoor]
  · intro r st hd hw hlast hoor
    rw [moveSnake_eq hlast, if_neg (by rw [hw]; exact Bool.false_ne_true), if_pos hoor]

/-- C7 witness: the spec scenario — head (19,10), direction (1,0), Solid
mode, 20 by 20 grid — in both variants. -/
theorem c7_witness :
    AppJsx.tick (fun _ => ⟨0, 0⟩) 0 c7appState =
      some { c7appState with gameOver := true, isPlaying := false,
                             direction := c7appState.dirRef } ∧
    Canvas.moveSnake 0 c7canState = Canvas.endGame c7canState ∧
    (Canvas.endGame c7canState).snake = c7canState.snake :=
  ⟨c7_solid_wall_over.1 (fun _ => ⟨0, 0⟩) 0 c7appState ⟨19, 10⟩ [] rfl rfl rfl rfl
      (by decide),
   c7_solid_wall_over.2.1 0 c7canState ⟨19, 10⟩ rfl rfl (by decide),
   (c7_solid_wall_over.2.2 c7canState).1⟩

/-- C5: every reachable state of either variant has a duplicate-free snake
of length at least one (in App.jsx in particular while gameOver is false),
and the invariant is preserved by each of the four operations — advance,
direction input, reset and the wall-mode toggle. -/
theorem c5_reachable_no_duplicates :
    (∀ st : AppJsx.GameState, AppJsx.Reach st → st.gameOver = false →
      st.snake.Nodup ∧ 1 ≤ st.snake.length) ∧
    (∀ st : Canvas.GameState, Canvas.Reach st →
      st.snake.Nodup ∧ 1 ≤ st.snake.length) ∧
    (∀ (stream : Nat → Cell) (fuel : Nat) (st st' : AppJsx.GameState),
      AppJsx.Inv st → AppJsx.tick stream fuel st = some st' → AppJsx.Inv st') ∧
    (∀ (k : AppJsx.Key) (st : AppJsx.GameState),
      AppJsx.Inv st → AppJsx.Inv (AppJsx.pressKey k st)) ∧
    (∀ st : AppJsx.GameState, AppJsx.Inv (AppJsx.resetGame st)) ∧
    (∀ (m : AppJsx.GameMode) (st : AppJsx.GameState),
      AppJsx.Inv st → AppJsx.Inv (AppJsx.setGameMode m st)) ∧
    (∀ (r : Nat) (st : Canvas.GameState),
      Canvas.InvC st → Canvas.InvC (Canvas.moveSnake r st)) ∧
    (∀ (k : Canvas.Key) (st : Canvas.GameState),
      Canvas.InvC st → Canvas.InvC (Canvas.handleKey k st)) ∧
    (∀ (r : Nat) (st : Canvas.GameState), Canvas.InvC (Canvas.resetGame r st)) ∧
    (∀ st : Canvas.GameState, Canvas.InvC st → Canvas.InvC (Canvas.toggleWalls st)) := by
  refine ⟨fun st h _ => reach_inv_appjsx h,
    fun st h => reach_inv_canvas h,
    fun stream fuel st st' hi he => tick_inv hi he,
    fun k st hi => hi,
    fun st => ⟨(by decide : AppJsx.INITIAL_SNAKE.Nodup),
      (by decide : 1 ≤ AppJsx.INITIAL_SNAKE.length)⟩,
    ?_,
    fun r st hi => moveSnake_inv hi,
    fun k st hi => invC_congr (handleKey_snake k st) hi,
    fun r st => ⟨(by decide : Canvas.startSnake.Nodup),
      (by decide : 1 ≤ Canvas.startSnake.length)⟩,
    fun st hi => invC_congr rfl hi⟩
  intro m st hi
  unfold AppJsx.setGameMode
  split
  · exact hi
  · exact hi

/-- C5 witness: the invariant at the two initial states. -/
theorem c5_witness :
    (AppJsx.initState.snake.Nodup ∧ 1 ≤ AppJsx.initState.snake.length) ∧
    ((Canvas.initState 0 0).snake.Nodup ∧ 1 ≤ (Canvas.initState 0 0).snake.length) :=
  ⟨c5_reachable_no_duplicates.1 AppJsx.initState AppJsx.Reach.boot rfl,
   c5_reachable_no_duplicates.2.1 (Canvas.initState 0 0) (Canvas.Reach.boot 0 0)⟩

/-- C8 counterexample: Wrap mode, head (19,10) moving right wraps onto
(0,10), but the body already occupies (0,10) behind the opposite wall, so
the tick ends the game: Phase does not remain Running, refuting the
universally quantified claim. -/
theorem c8_counterexample :
    c8exState.wrapWalls = true ∧ c8exState.running = true ∧
    c8exState.snake.getLast? = some ⟨19, 10⟩ ∧
    Canvas.wrapCellC ⟨19 + 1, 10 + 0⟩ = ⟨0, 10⟩ ∧
    (Canvas.moveSnake 0 c8exState).running = false := by
  exact ⟨rfl, rfl, rfl, by decide, by decide⟩

/-- C8 amended: for an in-range head, a coordinate stepped out of range by
a unit move is mapped exactly to its value modulo gridSize = 20 (so the
head reappears at the mirrored coordinate on the opposite edge), and the
game keeps running PROVIDED the wrapped head does not collide with the
snake body; in particular head (19,10) with direction (1,0) yields head
(0,10). -/
theorem c8_wrap_modulo :
    (∀ v : Int, -1 ≤ v → v ≤ 20 →
      AppJsx.wrapCoord v = v % 20 ∧ Canvas.wrapCoordC v = v % 20) ∧
    (∀ (stream : Nat → Cell) (fuel : Nat) (st st' : AppJsx.GameState) (hd : Cell)
        (rest : List Cell),
      st.isPlaying = true → st.gameOver = false → st.gameMode = .passThrough →
      st.snake = hd :: rest →
      AppJsx.wrapCell ⟨hd.x + st.dirRef.x, hd.y + st.dirRef.y⟩ ∉ st.snake →
      AppJsx.tick stream fuel st = some st' →
      st'.gameOver = false ∧ st'.isPlaying = true ∧
      st'.snake.head? = some (AppJsx.wrapCell ⟨hd.x + st.dirRef.x, hd.y + st.dirRef.y⟩)) ∧
    (∀ (r : Nat) (st : Canvas.GameState) (hd : Cell),
      st.wrapWalls = true → st.snake.getLast? = some hd →
      Canvas.wrapCellC ⟨hd.x + st.direction.x, hd.y + st.direction.y⟩ ∉ st.snake →
      (Canvas.moveSnake r st).running = st.running ∧
      (Canvas.moveSnake r st).snake.getLast? =
        some (Canvas.wrapCellC ⟨hd.x + st.direction.x, hd.y + st.direction.y⟩)) := by
  refine ⟨fun v h1 h2 => ⟨wrapCoord_eq_emod h1 h2, wrapCoordC_eq_emod h1 h2⟩, ?_, ?_⟩
  · intro stream fuel st st' hd rest hp hg hm hs hnm htick
    rw [tick_pass hp hg hs hm] at htick
    unfold AppJsx.applyHead at htick
    rw [if_neg hnm] at htick
    split at htick
    · split at htick
      · exact absurd htick (by simp)
      · cases htick
        exact ⟨hg, hp, List.head?_cons⟩
    · cases htick
      refine ⟨hg, hp, ?_⟩
      rw [hs, List.dropLast_cons₂, List.head?_cons]
  · intro r st hd hw hlast hnm
    rw [moveSnake_eq hlast, if_pos hw]
    unfold Canvas.moveCore
    rw [if_neg hnm]
    split
    · exact ⟨rfl, List.getLast?_concat _⟩
    · refine ⟨rfl, ?_⟩
      obtain ⟨a, l, hal⟩ : ∃ a l, st.snake = a :: l := List.exists_cons_of_ne_nil
        (fun hnil => by rw [hnil] at hlast; simp at hlast)
      rw [hal, List.cons_append, List.tail_cons]
      exact List.getLast?_concat _

/-- C8 witness: wrapCoord 20 = 20 mod 20 = 0, and the spec scenario — head
(19,10), direction (1,0), Wrap mode — yields head (0,10) with the game
still going, in both variants. -/
theorem c8_witness :
    (AppJsx.wrapCoord 20 = 20 % 20 ∧ Canvas.wrapCoordC 20 = 20 % 20) ∧
    (({ c8appState with snake := [⟨0, 10⟩] } : AppJsx.GameState).gameOver = false ∧
      ({ c8appState with snake := [⟨0, 10⟩] } : AppJsx.GameState).isPlaying = true ∧
      ({ c8appState with snake := [⟨0, 10⟩] } : AppJsx.GameState).snake.head? =
        some (AppJsx.wrapCell ⟨19 + 1, 10 + 0⟩)) ∧
    (Canvas.moveSnake 0 c8canState).running = c8canState.running ∧
    (Canvas.moveSnake 0 c8canState).snake.getLast? =
      some (Canvas.wrapCellC ⟨19 + 1, 10 + 0⟩) := by
  refine ⟨c8_wrap_modulo.1 20 (by decide) (by decide), ?_, ?_, ?_⟩
  · exact c8_wrap_modulo.2.1 (fun _ => ⟨0, 0⟩) 0 c8appState
      { c8appState with snake := [⟨0, 10⟩] } ⟨19, 10⟩ [] rfl rfl rfl rfl
      (by decide) (by decide)
  · exact (c8_wrap_modulo.2.2 0 c8canState ⟨19, 10⟩ rfl rfl (by decide)).1
  · exact (c8_wrap_modulo.2.2 0 c8canState ⟨19, 10⟩ rfl rfl (by decide)).2

theorem moveCore_food_cases (r : Nat) (st : Canvas.GameState) (nh : Cell) :
    (Canvas.moveCore r st nh).food = st.food ∨
    ((Canvas.moveCore r st nh).snake = st.snake ++ [nh] ∧ nh = st.food ∧
      (Canvas.moveCore r st nh).food =
        Canvas.randomFoodPosition (st.snake ++ [nh]) Canvas.gridSize r) := by
  unfold Canvas.moveCore
  split
  · exact Or.inl rfl
  · split
    · next hf => exact Or.inr ⟨rfl, hf, rfl⟩
    · exact Or.inl rfl

theorem moveSnake_food (r : Nat) (st : Canvas.GameState) :
    (Canvas.moveSnake r st).food = st.food ∨
    ((Canvas.moveSnake r st).snake.getLast? = some st.food ∧
      (Canvas.moveSnake r st).food =
        Canvas.randomFoodPosition (Canvas.moveSnake r st).snake Canvas.gridSize r) := by
  unfold Canvas.moveSnake
  split
  · exact Or.inl rfl
  · split
    · rcases moveCore_food_cases r st _ with h | ⟨hsn, hf, hfood⟩
      · exact Or.inl h
      · refine Or.inr ⟨?_, ?_⟩
        · rw [hsn, ← hf]
          exact List.getLast?_concat _
        · rw [hfood, hsn]
    · split
      · exact Or.inl rfl
      · rcases moveCore_food_cases r st _ with h | ⟨hsn, hf, hfood⟩
        · exact Or.inl h
        · refine Or.inr ⟨?_, ?_⟩
          · rw [hsn, ← hf]
            exact List.getLast?_concat _
          · rw [hfood, hsn]

theorem applyHead_food {stream : Nat → Cell} {fuel : Nat} {st st' : AppJsx.GameState}
    {nh : Cell} (h : AppJsx.applyHead stream fuel st nh = some st') :
    (st'.food = st.food ∧ st'.snake.length ≤ st.snake.length) ∨
    (st'.snake = st.food :: st.snake ∧ st'.food ∉ st'.snake) := by
  unfold AppJsx.applyHead at h
  split at h
  · cases h
    exact Or.inl ⟨rfl, Nat.le_refl _⟩
  · split at h
    · next hf =>
      split at h
      · exact absurd h (by simp)
      · next f haux =>
        cases h
        refine Or.inr ⟨?_, ?_⟩
        · rw [hf]
        · exact generateFoodAux_some_not_mem fuel 0 haux
    · cases h
      refine Or.inl ⟨rfl, ?_⟩
      rw [List.length_dropLast]
      simp only [List.length_cons]
      omega

theorem tick_food {stream : Nat → Cell} {fuel : Nat} {st st' : AppJsx.GameState}
    (h : AppJsx.tick stream fuel st = some st') :
    (st'.food = st.food ∧ st'.snake.length ≤ st.snake.length) ∨
    (st'.snake = st.food :: st.snake ∧ st'.food ∉ st'.snake) := by
  unfold AppJsx.tick at h
  split at h
  · cases h
    exact Or.inl ⟨rfl, Nat.le_refl _⟩
  · split at h
    · exact absurd h (by simp)
    · split at h
      · split at h
        · cases h
          exact Or.inl ⟨rfl, Nat.le_refl _⟩
        · exact applyHead_food h
      · exact applyHead_food h

/-- C6 counterexample: one tick before the snake fills the grid, the head
eats the last free cell; randomFoodPosition finds no free cell and falls
back to (0,0), which lies INSIDE the post-move 400-cell snake — the
regenerated food coincides with a snake cell, refuting the claim on this
eating tick. -/
theorem c6_counterexample :
    (Canvas.moveSnake 0 c6state).snake.getLast? = some c6state.food ∧
    (Canvas.moveSnake 0 c6state).snake.length = 400 ∧
    (Canvas.moveSnake 0 c6state).food ∈ (Canvas.moveSnake 0 c6state).snake := by
  exact ⟨by decide, by decide, by decide⟩

/-- C6 amended: Food changes only on ticks whose new head equals the
current Food cell (on such a tick the new head — the last canvas list
element, the first App.jsx list element — is the old Food), the regenerated
Food is the value of the food generator on the post-move snake, and it lies
outside the post-move snake PROVIDED a free cell exists (in App.jsx,
provided the rejection loop returned, which it only does with a sample
outside the snake); when the snake covers the whole grid the canvas
fallback (0,0) lies inside the snake. -/
theorem c6_food_regen :
    (∀ (r : Nat) (st : Canvas.GameState),
      (Canvas.moveSnake r st).food ≠ st.food →
      (Canvas.moveSnake r st).snake.getLast? = some st.food ∧
      (Canvas.moveSnake r st).food =
        Canvas.randomFoodPosition (Canvas.moveSnake r st).snake Canvas.gridSize r) ∧
    (∀ (r : Nat) (st : Canvas.GameState),
      Canvas.freeCells (Canvas.moveSnake r st).snake Canvas.gridSize ≠ [] →
      (Canvas.moveSnake r st).food ≠ st.food →
      (Canvas.moveSnake r st).food ∉ (Canvas.moveSnake r st).snake) ∧
    (∀ (stream : Nat → Cell) (fuel : Nat) (st st' : AppJsx.GameState),
      AppJsx.tick stream fuel st = some st' → st'.food ≠ st.food →
      st'.snake.head? = some st.food ∧ st'.food ∉ st'.snake) ∧
    (∀ (stream : Nat → Cell) (fuel : Nat) (st st' : AppJsx.GameState),
      AppJsx.tick stream fuel st = some st' →
      st'.snake.length = st.snake.length + 1 →
      st'.snake.head? = some st.food ∧ st'.food ∉ st'.snake ∧ st'.food ≠ st.food) := by
  refine ⟨?_, ?_, ?_, ?_⟩
  · intro r st hne
    rcases moveSnake_food r st with h | h
    · exact absurd h hne
    · exact h
  · intro r st hfree hne
    rcases moveSnake_food r st with h | ⟨_, hfood⟩
    · exact absurd h hne
    · rw [hfood]
      exact randomFoodPosition_not_mem hfree
  · intro stream fuel st st' htick hne
    rcases tick_food htick with ⟨h, _⟩ | ⟨hsn, hnm⟩
    · exact absurd h hne
    · refine ⟨?_, hnm⟩
      rw [hsn]
      exact List.head?_cons
  · intro stream fuel st st' htick hlen
    rcases tick_food htick with ⟨_, hle⟩ | ⟨hsn, hnm⟩
    · omega
    · refine ⟨?_, hnm, ?_⟩
      · rw [hsn]
        exact List.head?_cons
      · intro he
        apply hnm
        rw [he, hsn]
        exact List.mem_cons_self _ _

/-- C6 witness: a canvas tick and an App.jsx tick that eat with plenty of
free cells left — the food moves, the new head is the old food, and the
regenerated food avoids the grown snake. -/
theorem c6_witness :
    ((Canvas.moveSnake 0 c6eatState).food ≠ c6eatState.food ∧
      (Canvas.moveSnake 0 c6eatState).snake.getLast? = some c6eatState.food ∧
      (Canvas.moveSnake 0 c6eatState).food ∉ (Canvas.moveSnake 0 c6eatState).snake) ∧
    (({ c6eatStateApp with snake := [⟨11, 10⟩, ⟨10, 10⟩], food := ⟨0, 0⟩, score := 10 } :
        AppJsx.GameState).snake.head? = some c6eatStateApp.food ∧
      ({ c6eatStateApp with snake := [⟨11, 10⟩, ⟨10, 10⟩], food := ⟨0, 0⟩, score := 10 } :
        AppJsx.GameState).food ∉
        ([⟨11, 10⟩, ⟨10, 10⟩] : List Cell) ∧
      ({ c6eatStateApp with snake := [⟨11, 10⟩, ⟨10, 10⟩], food := ⟨0, 0⟩, score := 10 } :
        AppJsx.GameState).food ≠ c6eatStateApp.food) := by
  refine ⟨⟨by decide, ?_, ?_⟩, ?_⟩
  · exact (c6_food_regen.1 0 c6eatState (by decide)).1
  · exact c6_food_regen.2.1 0 c6eatState (by decide) (by decide)
  · exact c6_food_regen.2.2.2 (fun _ => ⟨0, 0⟩) 1 c6eatStateApp
      { c6eatStateApp with snake := [⟨11, 10⟩, ⟨10, 10⟩], food := ⟨0, 0⟩, score := 10 }
      (by decide) (by decide)

/-- C10 counterexample: the App.jsx do-while rejection loop has NO
deterministic fallback: on a snake occupying every grid cell no sampled
cell is ever accepted, so generateFood does not terminate for any sample
stream — here witnessed by the constant stream at (0,0). -/
theorem c10_counterexample :
    ¬ AppJsx.generateFoodHalts fullGridSnake (fun _ => ⟨0, 0⟩) := by
  intro h
  obtain ⟨fuel, hf⟩ := h
  rw [fullGrid_aux_none fuel 0] at hf
  simp at hf

/-- C10 amended: the canvas randomFoodPosition is total — it returns a cell
outside the snake, or on a fully occupied grid the deterministic fallback
(0,0) — so every canvas advance terminates; the App.jsx rejection loop
terminates exactly when the sample stream eventually hits a free cell
(given one free sample k steps ahead, k+1 iterations suffice), and any
returned cell is outside the snake — but on a full grid it never returns. -/
theorem c10_food_termination :
    (∀ (snakeArr : List Cell) (r : Nat),
      Canvas.randomFoodPosition snakeArr Canvas.gridSize r ∉ snakeArr ∨
      (Canvas.freeCells snakeArr Canvas.gridSize = [] ∧
        Canvas.randomFoodPosition snakeArr Canvas.gridSize r = ⟨0, 0⟩)) ∧
    (∀ (snake : List Cell) (stream : Nat → Cell) (idx k : Nat),
      stream (idx + k) ∉ snake →
      (AppJsx.generateFoodAux snake stream idx (k + 1)).isSome = true) ∧
    (∀ (snake : List Cell) (stream : Nat → Cell) (idx fuel : Nat) (f : Cell),
      AppJsx.generateFoodAux snake stream idx fuel = some f → f ∉ snake) := by
  refine ⟨?_, fun snake stream idx k h => generateFoodAux_halts_of_free k idx h,
    fun snake stream idx fuel f h => generateFoodAux_some_not_mem fuel idx h⟩
  intro snakeArr r
  rcases randomFoodPosition_cases snakeArr Canvas.gridSize r with h | ⟨h1, h2⟩
  · exact Or.inl (mem_freeCells_iff.mp h).2
  · exact Or.inr ⟨h1, h2⟩

/-- C10 witness: a one-cell snake with a free sample in the stream — the
loop returns within one iteration and the returned cell avoids the
snake. -/
theorem c10_witness :
    (AppJsx.generateFoodAux [⟨0, 0⟩] (fun _ => ⟨1, 1⟩) 0 1).isSome = true ∧
    (⟨1, 1⟩ : Cell) ∉ ([⟨0, 0⟩] : List Cell) :=
  ⟨c10_food_termination.2.1 [⟨0, 0⟩] (fun _ => ⟨1, 1⟩) 0 0 (by decide),
   c10_food_termination.2.2 [⟨0, 0⟩] (fun _ => ⟨1, 1⟩) 0 1 ⟨1, 1⟩ (by decide)⟩
